import Mathlib

/-!
# A verification development for the Flask-FlatPages core

This file gives a shallow embedding, in Lean 4, of the core algorithms of the
Flask-FlatPages repository:

* the Python string primitives the code relies on (`str.split("\n")`,
  `"\n".join`, `str.lstrip("\n")`, truthiness of `str.strip()`),
* the legacy front-matter parser (`FlatPages._legacy_parser` /
  `parsers/yaml.py legacy_parser`),
* the tokenizing front-matter parser (`FlatPages._libyaml_parser` /
  `parsers/yaml.py libyaml_parser`), embedded as a function of the raw
  content together with the token stream the PyYAML scanner yields on it,
* the TOML delimited-block metadata parser (`parsers/toml.py toml_parser`),
* the metadata decoders (`parsers/yaml.py load_meta`, `page.py Page.meta`)
  together with a faithful model of Python's `dict.update` semantics,
* the mtime-keyed file cache (`FlatPages._load_file`), the page-table build
  with collision detection (`FlatPages._pages`) and `FlatPages.reload`,
* the arity-dispatching renderer wrapper (`FlatPages._smart_html_renderer`).

Theorems about these definitions settle the frozen claims C1..C10.
-/

namespace FlatPagesSpec

/-! ## Python string primitives

The Python code manipulates text by `content.split("\n")`, `"\n".join(...)`,
`content.lstrip("\n")` and the truthiness of `line.strip()`.  We model those
operations character-exactly.  Strings are their character lists
(`String.data`); the helpers below are stated on `List Char` and lifted. -/

/-- The character class of Python's `str.strip()` / `str.isspace()`:
the Unicode whitespace code points Python strips by default. -/
def pyIsSpace (c : Char) : Bool :=
  c = ' ' || c = '\t' || c = '\n' || c = '\r' || c = '\x0b' || c = '\x0c' ||
  c = '\x1c' || c = '\x1d' || c = '\x1e' || c = '\x1f' ||
  c = '\u0085' || c = '\u00a0' || c = '\u1680' ||
  c = '\u2000' || c = '\u2001' || c = '\u2002' || c = '\u2003' ||
  c = '\u2004' || c = '\u2005' || c = '\u2006' || c = '\u2007' ||
  c = '\u2008' || c = '\u2009' || c = '\u200a' ||
  c = '\u2028' || c = '\u2029' || c = '\u202f' || c = '\u205f' || c = '\u3000'

/-- Truthiness of `line.strip()` in Python: `True` iff the line contains at
least one non-whitespace character.  This is the predicate
`operator.methodcaller("strip")` computes in the legacy parser. -/
def pyStripTruthy (s : String) : Bool :=
  s.data.any (fun c => !(pyIsSpace c))

/-- Model of Python's `content.split("\n")` on character lists: split at every
newline, keeping empty segments ( `"".split("\n") == [""]` ). -/
def splitNlChars : List Char → List (List Char)
  | [] => [[]]
  | c :: cs =>
    if c = '\n' then [] :: splitNlChars cs
    else
      match splitNlChars cs with
      | [] => [[c]]
      | h :: t => (c :: h) :: t

/-- `content.split("\n")` for Lean strings. -/
def splitLines (s : String) : List String :=
  (splitNlChars s.data).map String.mk

/-- Model of Python's `"\n".join(lines)` (`"\n".join([]) == ""`). -/
def joinLines : List String → String
  | [] => ""
  | [l] => l
  | l :: l' :: ls => l ++ "\n" ++ joinLines (l' :: ls)

/-- Model of Python's `s.lstrip("\n")`: drop every leading newline char. -/
def lstripNl (s : String) : String :=
  String.mk (s.data.dropWhile (fun c => c = '\n'))

/-- Char-level counterpart of `joinLines`, for the round-trip proof. -/
def joinNlChars : List (List Char) → List Char
  | [] => []
  | [l] => l
  | l :: l' :: ls => l ++ '\n' :: joinNlChars (l' :: ls)

/-! ## The legacy front-matter parser

Source: `FlatPages._legacy_parser` (flatpages.py lines 370-379) and
`parsers/yaml.py legacy_parser` (lines 71-81).  The Python code is

    lines = iter(content.split("\n"))
    meta = "\n".join(takewhile(operator.methodcaller("strip"), lines))
    content = "\n".join(lines)

`takewhile` reads from the iterator until a line whose `strip()` is falsy
and consumes that terminating line; the joined rest of the iterator is the
body.  Hence the body is the lines after the metadata prefix with exactly
one further line (the first blank one, when it exists) consumed. -/

def legacyParse (content : String) : String × String :=
  let lines := splitLines content
  let metaLines := lines.takeWhile pyStripTruthy
  (joinLines metaLines, joinLines (lines.drop (metaLines.length + 1)))

/-! ## The tokenizing front-matter parser

Source: `FlatPages._libyaml_parser` (flatpages.py lines 333-368) and
`parsers/yaml.py libyaml_parser` (lines 84-116).  The code drives PyYAML's
`SafeLoader.get_token()` over the content.  The scanner is a third-party
library, so the embedding takes the token stream it yields as an input: a
`Tok` records the token class and the line numbers of its start/end marks,
and for a `ScalarToken` its value and whether its style is plain
(`style is None`).  `raises = true` means that, once `stream` is exhausted,
the next `get_token()` call raises a scanner error (otherwise further calls
return `None`, as PyYAML does at end of stream). -/

inductive TokKind : Type
  | streamStart
  | streamEnd
  | docStart
  | docEnd
  | blockMappingStart
  | blockSequenceStart
  | flowMappingStart
  | flowSequenceStart
  | keyTok
  | valueTok
  | blockEnd
  | flowEnd
  | blockEntry
  | scalar (value : String) (plain : Bool)
  deriving DecidableEq

/-- A PyYAML token together with the line numbers of its marks
(`start_mark.line`, `end_mark.line`; both 0-based as in PyYAML). -/
structure Tok : Type where
  kind : TokKind
  startLine : Nat
  endLine : Nat
  deriving DecidableEq

/-- `isinstance(token, START_TOKENS)` for an actual token;
`START_TOKENS` is defined in flatpages.py lines 41-48. -/
def isStartTok : TokKind → Bool
  | .blockMappingStart => true
  | .blockSequenceStart => true
  | .docStart => true
  | .flowMappingStart => true
  | .flowSequenceStart => true
  | .keyTok => true
  | _ => false

/-- `_check_newline_token` (flatpages.py lines 51-56): a plain-style
`ScalarToken` whose value contains an embedded newline. -/
def checkNewlineTok (t : Tok) : Bool :=
  match t.kind with
  | .scalar v plain => plain && v.data.contains '\n'
  | _ => false

/-- `_check_continue_parsing_tokens` (flatpages.py lines 59-63) on the
optional current token: continue unless the token is a document
start/end token or `None`. -/
def checkContinueTok : Option Tok → Bool
  | none => false
  | some t => !(t.kind = .docStart || t.kind = .docEnd)

/-- One `get_token()` call: the next token of the stream, `none` when the
stream is exhausted normally, or an error when the scanner raises. -/
def popTok (stream : List Tok) (raises : Bool) :
    Except Unit (Option Tok × List Tok) :=
  match stream with
  | [] => if raises then .error () else .ok (none, [])
  | t :: rest => .ok (some t, rest)

/-- The `while _check_continue_parsing_tokens(token)` loop
(flatpages.py lines 348-354): repeatedly `get_token()` inside
`try/except`, recording the first newline-scalar token.  Returns the value
of `token` after the loop together with `newline_token`.  A scanner
exception breaks the loop, leaving `token` at its previous value. -/
def parseLoop (raises : Bool) (token : Option Tok) (rest : List Tok)
    (nt : Option Tok) : Option Tok × Option Tok :=
  if checkContinueTok token then
    match rest with
    | [] =>
      -- `get_token()` on the exhausted stream: raises → break with the
      -- previous token; otherwise `token = None` and the loop exits.
      if raises then (token, nt) else (none, nt)
    | t :: r =>
      parseLoop raises (some t) r
        (if nt.isNone && checkNewlineTok t then some t else nt)
  else (token, nt)

/-- Outcome of the string-level split performed by `_libyaml_parser`:
either a `(meta, body)` pair, or the `ValueError` that
`lines[meta_end_line:].index("")` raises when no empty line exists
(`indexErr`), or a scanner error escaping from a `get_token()` call that
is not wrapped in `try/except` (`scanErr`). -/
inductive SplitOut : Type
  | ok (meta body : String)
  | indexErr
  | scanErr
  deriving DecidableEq

/-- The decision the tokenizer part of `_libyaml_parser` reaches, before
the line arithmetic is applied to the content. -/
inductive YamlDecision : Type
  | notStart
  | scanErr
  | loopResult (token : Option Tok) (nt : Option Tok)
  deriving DecidableEq

/-- Run the token-consuming part of `_libyaml_parser` on a stream. -/
def libyamlDecision (stream : List Tok) (raises : Bool) : YamlDecision :=
  match popTok stream raises with
  | .error _ => .scanErr
  | .ok (_, rest1) =>
    -- first get_token(): the stream start token, discarded
    match popTok rest1 raises with
    | .error _ => .scanErr
    | .ok (tokOpt, rest2) =>
      if !(tokOpt.any (fun t => isStartTok t.kind)) then .notStart
      else
        -- if isinstance(token, DocumentStartToken): token = get_token()
        match
          (if tokOpt.any (fun t => t.kind = .docStart) then popTok rest2 raises
           else .ok (tokOpt, rest2)) with
        | .error _ => .scanErr
        | .ok (tok0, rest3) =>
          .loopResult (parseLoop raises tok0 rest3 none).1
            (parseLoop raises tok0 rest3 none).2

/-- `FlatPages._libyaml_parser` (flatpages.py lines 333-368), embedded as a
function of the content and of the PyYAML token stream for that content:
returns the `(meta, body)` string pair, or the error the Python code
raises.  The same splitting code appears in `parsers/yaml.py
libyaml_parser` (lines 84-116), which additionally decodes `meta` via
`load_meta`. -/
def libyamlSplit (content : String) (stream : List Tok) (raises : Bool) :
    SplitOut :=
  match libyamlDecision stream raises with
  | .scanErr => .scanErr
  | .notStart => .ok "" (lstripNl content)
  | .loopResult token nt =>
    let lines := splitLines content
    match token, nt with
    | none, none => .ok content ""
    | some t, _ =>
      let metaEndLine := t.endLine + 1
      .ok (joinLines (lines.take metaEndLine))
        (lstripNl (joinLines (lines.drop metaEndLine)))
    | none, some ntT =>
      match (lines.drop ntT.startLine).findIdx? (fun l => l = "") with
      | none => .indexErr
      | some i =>
        let metaEndLine := ntT.startLine + i
        .ok (joinLines (lines.take metaEndLine))
          (lstripNl (joinLines (lines.drop metaEndLine)))

/-! ## The TOML delimited-block metadata parser

Source: `parsers/toml.py toml_parser` (lines 14-32).  The enumerate loop
looks for a second `"+++"` line (1-based index `end_idx`, `0` when no
second delimiter is found); the metadata text is the joined lines before
`end_idx` minus delimiter lines, the body the joined lines from `end_idx`
on, minus delimiter lines, with leading newlines stripped.  `toml.loads`
is a third-party decoder and is passed in as a function. -/

/-- The `for idx, line in enumerate(lines, 1)` loop of `toml_parser`:
returns `end_idx`, the 1-based index of the second `"+++"` line, or `0`
if no second delimiter is found.  `idx` is the 1-based index of the
current line, `start` the flag set at the first delimiter. -/
def tomlFindEndAux : List String → Nat → Bool → Nat
  | [], _, _ => 0
  | l :: ls, idx, start =>
    if l = "+++" then
      if start then idx else tomlFindEndAux ls (idx + 1) true
    else tomlFindEndAux ls (idx + 1) start

def tomlFindEnd (lines : List String) : Nat :=
  tomlFindEndAux lines 1 false

/-- The pure string-splitting part of `toml_parser`: the TOML text passed
to `toml.loads` and the body text. -/
def tomlSplit (content : String) : String × String :=
  let lines := splitLines content
  let endIdx := tomlFindEnd lines
  (joinLines ((lines.take endIdx).filter (fun l => l ≠ "+++")),
   lstripNl (joinLines ((lines.drop endIdx).filter (fun l => l ≠ "+++"))))

/-- YAML/TOML values as decoded by the third-party loaders; mapping keys
are strings (the only key type the claims need). -/
inductive YVal : Type
  | yNull
  | yBool (b : Bool)
  | yInt (n : Int)
  | yStr (s : String)
  | yList (items : List YVal)
  | yMap (entries : List (String × YVal))

/-- `toml_parser` (parsers/toml.py lines 14-32), with the third-party
`toml.loads` supplied as `loads`. -/
def tomlParse (loads : String → List (String × YVal)) (content : String) :
    List (String × YVal) × String :=
  (loads (tomlSplit content).1, (tomlSplit content).2)

/-! ## Metadata decoders and Python `dict` semantics

Source: `parsers/yaml.py load_meta` (lines 51-68) and `page.py Page.meta`
(lines 95-107).  `load_meta` folds `meta.update(doc)` over the documents
`yaml.safe_load_all` yields; `Page.meta` checks a single
`yaml.safe_load` result.  The loaders are third-party, so the decoders
are embedded as functions of the already-decoded documents.  Python's
`dict.update` accepts a mapping or an iterable of key/value pairs and
raises `TypeError`/`ValueError` otherwise; we model that exactly. -/

/-- A Python exception, as `load_meta` can raise it. -/
inductive PyExc : Type
  | typeError (msg : String)
  | valueError (msg : String)
  deriving DecidableEq

/-- Python truthiness of a decoded value (`if not meta`). -/
def yTruthy : YVal → Bool
  | .yNull => false
  | .yBool b => b
  | .yInt n => n ≠ 0
  | .yStr s => s ≠ ""
  | .yList items => !items.isEmpty
  | .yMap entries => !entries.isEmpty

/-- `type(meta).__name__` for a decoded value. -/
def yTypeName : YVal → String
  | .yNull => "NoneType"
  | .yBool _ => "bool"
  | .yInt _ => "int"
  | .yStr _ => "str"
  | .yList _ => "list"
  | .yMap _ => "dict"

/-- `d[k] = v` on a Python dict modelled as an ordered association list:
overwrite in place if the key exists, else append. -/
def dictSet (d : List (String × YVal)) (k : String) (v : YVal) :
    List (String × YVal) :=
  if d.any (fun e => e.1 = k) then
    d.map (fun e => if e.1 = k then (k, v) else e)
  else d ++ [(k, v)]

/-- One element of the iterable given to `dict.update`: it must behave as
a sequence of length 2 whose first item is a key.  `i` is the element
index used in Python's error messages. -/
def dictUpdateElem (d : List (String × YVal)) (i : Nat) :
    YVal → Except PyExc (List (String × YVal))
  | .yList [.yStr k, v] => .ok (dictSet d k v)
  | .yList l =>
    if l.length = 2 then
      -- a length-2 sequence with a non-string (unhashable-for-us) key is
      -- out of scope for the claims; Python would accept hashable keys.
      .error (.typeError "unsupported key type in dictionary update sequence")
    else
      .error (.valueError
        ("dictionary update sequence element #" ++ toString i ++
          " has length " ++ toString l.length ++ "; 2 is required"))
  | .yStr s =>
    match s.data with
    | [k, v] => .ok (dictSet d (String.mk [k]) (.yStr (String.mk [v])))
    | cs =>
      .error (.valueError
        ("dictionary update sequence element #" ++ toString i ++
          " has length " ++ toString cs.length ++ "; 2 is required"))
  | .yMap entries =>
    -- iterating a dict yields its keys
    match entries.map (fun e => e.1) with
    | [k, v] => .ok (dictSet d k (.yStr v))
    | ks =>
      .error (.valueError
        ("dictionary update sequence element #" ++ toString i ++
          " has length " ++ toString ks.length ++ "; 2 is required"))
  | _ =>
    .error (.typeError
      ("cannot convert dictionary update sequence element #" ++ toString i ++
        " to a sequence"))

def dictUpdateList (d : List (String × YVal)) (i : Nat) :
    List YVal → Except PyExc (List (String × YVal))
  | [] => .ok d
  | e :: es => do
    let d' ← dictUpdateElem d i e
    dictUpdateList d' (i + 1) es

/-- Python's `meta.update(doc)`: merge a mapping key-by-key; iterate any
other iterable as key/value pairs; raise `TypeError` on non-iterables. -/
def dictUpdate (d : List (String × YVal)) :
    YVal → Except PyExc (List (String × YVal))
  | .yMap entries => .ok (entries.foldl (fun acc e => dictSet acc e.1 e.2) d)
  | .yList items => dictUpdateList d 0 items
  | .yStr s => dictUpdateList d 0 (s.data.map (fun c => .yStr (String.mk [c])))
  | other =>
    .error (.typeError ("'" ++ yTypeName other ++ "' object is not iterable"))

/-- The `for doc in safe_load_all(...)` loop body of `load_meta`:
`if doc is not None: meta.update(doc)`. -/
def loadMetaFold (meta : List (String × YVal)) :
    List YVal → Except PyExc (List (String × YVal))
  | [] => .ok meta
  | doc :: docs => do
    let meta' ← match doc with
      | .yNull => pure meta
      | _ => dictUpdate meta doc
    loadMetaFold meta' docs

/-- `load_meta` (parsers/yaml.py lines 51-68), as a function of the
documents `yaml.safe_load_all` yields for the metadata text.  After the
update loop the code checks `if not meta: return {}` and then
`if not isinstance(meta, dict): raise ValueError(...)`; since `meta`
starts as `{}` and is only ever passed to `dict.update`, it is always a
dict, so the `ValueError` branch (lines 62-67, the message naming the
path and the type) is unreachable — in the model this is visible in the
type of `meta` itself. -/
def load_meta (docs : List YVal) (_path : String) :
    Except PyExc (List (String × YVal)) := do
  let meta ← loadMetaFold [] docs
  if meta.isEmpty then return []
  -- `isinstance(meta, dict)` always holds here; the descriptive
  -- ValueError of lines 62-67 can never be raised.
  return meta

/-- `Page.meta` (page.py lines 95-107), as a function of the document
`yaml.safe_load(self._meta)` yields: empty/falsy results give `{}`, a
non-dict raises the descriptive ValueError naming the page and the type
(the message reproduces the source's spelling). -/
def pageMeta (decoded : YVal) (name : String) :
    Except PyExc (List (String × YVal)) :=
  if !yTruthy decoded then .ok []
  else
    match decoded with
    | .yMap entries => .ok entries
    | other =>
      .error (.valueError
        ("Excpected dict in metadata for '" ++ name ++ "', got " ++
          yTypeName other))

/-! ## The file cache, the page table and reload

Source: `FlatPages._load_file` (flatpages.py lines 243-267),
`FlatPages._pages` (lines 269-331) and `FlatPages.reload`
(lines 205-215).  The model is polymorphic in the type `P` of `Page`
objects and takes the parse step (`self._parse`) and the filesystem
(content and mtime per file name) as functions; the file cache
`self._file_cache` is a map from file names to `(page, mtime)` pairs,
exactly as the dict in the source. -/

/-- A file on disk: the text `open(...).read()` yields and the
modification time `os.path.getmtime` reports. -/
structure FSFile : Type where
  content : String
  mtime : Nat

/-- The `self._file_cache` dict: file name ↦ `(page, mtime when loaded)`. -/
def FileCache (P : Type) : Type := String → Option (P × Nat)

/-- `self._file_cache[filename] = (page, mtime)`. -/
def cacheStore {P : Type} (cache : FileCache P) (filename : String)
    (v : P × Nat) : FileCache P :=
  fun k => if k = filename then some v else cache k

/-- `FlatPages._load_file` (flatpages.py lines 243-267): honour the cache
entry only when its stored mtime equals the file's current mtime,
otherwise read, parse and store.  Returns the page and the new cache. -/
def load_file {P : Type} (parse : String → String → String → P)
    (fs : String → FSFile) (cache : FileCache P)
    (path filename rel_path : String) : P × FileCache P :=
  let mtime := (fs filename).mtime
  let cached := cache filename
  match cached with
  | some c =>
    if c.2 = mtime then (c.1, cache)
    else
      let content := (fs filename).content
      let page := parse content path rel_path
      (page, cacheStore cache filename (page, mtime))
  | none =>
    let content := (fs filename).content
    let page := parse content path rel_path
    (page, cacheStore cache filename (page, mtime))

/-- The error message of the collision check in `_pages`
(flatpages.py lines 326-329). -/
def collisionMsg : String :=
  "Multiple pages found which correspond to the same path. " ++
  "This error can arise when using multiple extensions."

/-- The `for path, full_name, rel_path in _walker()` loop of `_pages`
(flatpages.py lines 323-331): build the ordered `pages` dict, refusing a
`path` that is already present.  `walk` is the walker output, `acc` the
pages built so far. -/
def pagesAux {P : Type} (parse : String → String → String → P)
    (fs : String → FSFile) :
    List (String × String × String) → FileCache P →
    List (String × P) →
    Except String (List (String × P) × FileCache P)
  | [], cache, acc => .ok (acc, cache)
  | (path, fullName, relPath) :: rest, cache, acc =>
    if (acc.lookup path).isSome then .error collisionMsg
    else
      let r := load_file parse fs cache path fullName relPath
      pagesAux parse fs rest r.2 (acc ++ [(path, r.1)])

/-- The page-table build of `_pages` starting from the empty dict. -/
def pagesBuild {P : Type} (parse : String → String → String → P)
    (fs : String → FSFile) (walk : List (String × String × String))
    (cache : FileCache P) :
    Except String (List (String × P) × FileCache P) :=
  pagesAux parse fs walk cache []

/-- The mutable state of a `FlatPages` instance: the cached `_pages`
snapshot (the `cached_property` slot, `none` when not computed) and the
`_file_cache` dict. -/
structure FPState (P : Type) : Type where
  pages : Option (List (String × P))
  fcache : FileCache P

/-- `FlatPages.reload` (flatpages.py lines 205-215): forget the `_pages`
snapshot (`del self.__dict__["_pages"]`, with `KeyError` ignored); the
file cache is not touched. -/
def reload {P : Type} (s : FPState P) : FPState P :=
  { s with pages := none }

/-- Access to the `_pages` cached property: reuse the snapshot when
present, otherwise walk and build it (and keep the updated file cache). -/
def pagesAccess {P : Type} (parse : String → String → String → P)
    (fs : String → FSFile) (walk : List (String × String × String))
    (s : FPState P) :
    Except String (List (String × P) × FPState P) :=
  match s.pages with
  | some tbl => .ok (tbl, s)
  | none =>
    match pagesBuild parse fs walk s.fcache with
    | .error e => .error e
    | .ok (tbl, c) => .ok (tbl, { pages := some tbl, fcache := c })

/-- `FlatPages.get(path)` (flatpages.py lines 129-140) with default
`None`, threading the state: looking up a missing path yields `none`. -/
def fpGet {P : Type} (parse : String → String → String → P)
    (fs : String → FSFile) (walk : List (String × String × String))
    (s : FPState P) (path : String) :
    Except String (Option P × FPState P) :=
  match pagesAccess parse fs walk s with
  | .error e => .error e
  | .ok (tbl, s') => .ok (tbl.lookup path, s')

/-! ## The directory walker's path derivation

Source: the `_walker` closure of `_pages` (flatpages.py lines 277-301).
For a file name and the tuple of accepted extensions:
`name.endswith(extension)` filters, then
`[name[: -len(item)] for item in extension if name.endswith(item)][0]`
strips the first matching extension, and the logical path joins the
relative directory segments and the stem with `/` (lower-cased when
`case_insensitive` is set). -/

/-- Model of Python's `"/".join(parts)`. -/
def joinSlash : List String → String
  | [] => ""
  | [l] => l
  | l :: l' :: ls => l ++ "/" ++ joinSlash (l' :: ls)

/-- Python's `name.endswith(item)`, on character lists. -/
def pyEndsWith (name item : String) : Bool :=
  item.data.isSuffixOf name.data

/-- Python's `name[: -len(item)]` for a suffix `item` (note Python's
`name[:-0] == ""`). -/
def pyDropSuffix (name : String) (suffixLen : Nat) : String :=
  if suffixLen = 0 then ""
  else String.mk (name.data.take (name.data.length - suffixLen))

/-- The logical path `_walker` derives for one file, `none` when no
accepted extension matches. -/
def walkerPath (extensions : List String) (caseInsensitive : Bool)
    (relSegments : List String) (name : String) : Option String :=
  if !(extensions.any (fun e => pyEndsWith name e)) then none
  else
    match (extensions.filter (fun e => pyEndsWith name e)).map
        (fun e => pyDropSuffix name e.data.length) with
    | [] => none
    | stem :: _ =>
      let path := joinSlash (relSegments ++ [stem])
      some (if caseInsensitive then path.toLower else path)

/-- All walker items for a directory listing given as
`(relative segments, file name)` pairs, in listing order. -/
def walkerItems (extensions : List String) (caseInsensitive : Bool)
    (files : List (List String × String)) :
    List (String × String × String) :=
  files.filterMap (fun f =>
    (walkerPath extensions caseInsensitive f.1 f.2).map
      (fun p => (p, f.2, joinSlash f.1)))

/-! ## The arity-dispatching renderer wrapper

Source: `FlatPages._smart_html_renderer` (flatpages.py lines 407-461)
and `renderer.py smart_html_renderer` (lines 15-62).  The wrapper
inspects `len(getfullargspec(html_renderer).args)` — `none` models the
`TypeError` branch for non-introspectable callables — and calls the
renderer with `(body)`, `(body, flatpages)` or `(body, flatpages, page)`;
any other arity raises a `ValueError` naming the renderer and the arity. -/

/-- A page as the wrapper sees it: only `page.body` is read. -/
structure WPage : Type where
  body : String

/-- The call the wrapper makes to the configured renderer. -/
inductive RenderCall (F : Type) : Type
  | one (body : String)
  | two (body : String) (fp : F)
  | three (body : String) (fp : F) (pg : WPage)

/-- The `wrapper(page)` closure of `_smart_html_renderer`
(flatpages.py lines 431-459): `argsLength` is
`len(getfullargspec(html_renderer).args)` (`none` when `getfullargspec`
raises `TypeError`), `rname` stands for `repr(html_renderer)` in the
error message, `fp` is the `FlatPages` instance `self`. -/
def rendererWrapper {F : Type} (argsLength : Option Nat) (rname : String)
    (fp : F) (page : WPage) : Except String (RenderCall F) :=
  let body := page.body
  match argsLength with
  | none => .ok (.one body)
  | some n =>
    if n = 1 then .ok (.one body)
    else if n = 2 then .ok (.two body fp)
    else if n = 3 then .ok (.three body fp page)
    else
      .error ("HTML renderer function " ++ rname ++ " not supported by " ++
        "Flask-FlatPages, wrong number of arguments: " ++ toString n ++ ".")

/-- `FlatPages._smart_html_renderer` returns the wrapper itself; building
it never raises — the arity error is raised only when the wrapper is
first invoked on a page. -/
def smart_html_renderer {F : Type} (argsLength : Option Nat)
    (rname : String) (fp : F) : WPage → Except String (RenderCall F) :=
  fun page => rendererWrapper argsLength rname fp page

/-! ## Concrete PyYAML token streams

The token streams below are what PyYAML 6's `SafeLoader.get_token()`
yields for the concrete contents used in the theorems; each list mirrors
the scanner's output (token class, `start_mark.line`, `end_mark.line`,
scalar values and plain style). -/

/-- Token stream for `"---\na: b\n...\n\n\nX"`: an explicitly delimited
document (`---` ... `...`) followed by blank lines and a second
document.  The `DocumentEndToken` for `...` spans line 2. -/
def streamDocMarked : List Tok :=
  [⟨.streamStart, 0, 0⟩, ⟨.docStart, 0, 0⟩, ⟨.blockMappingStart, 1, 1⟩,
   ⟨.keyTok, 1, 1⟩, ⟨.scalar "a" true, 1, 1⟩, ⟨.valueTok, 1, 1⟩,
   ⟨.scalar "b" true, 1, 1⟩, ⟨.blockEnd, 2, 2⟩, ⟨.docEnd, 2, 2⟩,
   ⟨.scalar "X" true, 5, 5⟩, ⟨.streamEnd, 5, 5⟩]

/-- The multi-line plain scalar token of `"a: b\n  \n  c"`: the value of
key `a` folds across the whitespace-only line to `"b\nc"`, starting on
line 0. -/
def nlScalarTok : Tok := ⟨.scalar "b\nc" true, 0, 2⟩

/-- Token stream for `"a: b\n  \n  c"`: a block mapping whose value is
the multi-line plain scalar `nlScalarTok`; the stream ends normally. -/
def streamNlScalar : List Tok :=
  [⟨.streamStart, 0, 0⟩, ⟨.blockMappingStart, 0, 0⟩, ⟨.keyTok, 0, 0⟩,
   ⟨.scalar "a" true, 0, 0⟩, ⟨.valueTok, 0, 0⟩, nlScalarTok,
   ⟨.blockEnd, 2, 2⟩, ⟨.streamEnd, 2, 2⟩]

/-- Token stream for `"Hello world"`: the first token after the stream
start is a plain scalar, not one of `START_TOKENS`. -/
def streamHello : List Tok :=
  [⟨.streamStart, 0, 0⟩, ⟨.scalar "Hello world" true, 0, 0⟩,
   ⟨.streamEnd, 0, 0⟩]

/-- Token stream for `"a: b"`: a single-line block mapping; tokenization
exhausts the stream with no document boundary and no multi-line scalar. -/
def streamSimpleMap : List Tok :=
  [⟨.streamStart, 0, 0⟩, ⟨.blockMappingStart, 0, 0⟩, ⟨.keyTok, 0, 0⟩,
   ⟨.scalar "a" true, 0, 0⟩, ⟨.valueTok, 0, 0⟩, ⟨.scalar "b" true, 0, 0⟩,
   ⟨.blockEnd, 0, 0⟩, ⟨.streamEnd, 0, 0⟩]

/-- Decidable form of the `not isinstance(token, START_TOKENS)` test of
`_libyaml_parser`: the token obtained by the second `get_token()` call is
not a start token (`None` when the stream ends there without raising). -/
def secondTokNotStart (stream : List Tok) (raises : Bool) : Bool :=
  match stream with
  | _ :: t :: _ => !isStartTok t.kind
  | _ => !raises

/-! ## Helper lemmas about the string primitives -/

theorem splitNlChars_ne_nil (l : List Char) : splitNlChars l ≠ [] := by
  cases l with
  | nil => simp [splitNlChars]
  | cons c cs =>
    simp only [splitNlChars]
    by_cases h : c = '\n'
    · simp [h]
    · simp only [h, if_false]
      cases splitNlChars cs <;> simp

theorem joinNlChars_splitNlChars (l : List Char) :
    joinNlChars (splitNlChars l) = l := by
  induction l with
  | nil => rfl
  | cons c cs ih =>
    obtain ⟨h', t', ht⟩ : ∃ h' t', splitNlChars cs = h' :: t' := by
      cases hc : splitNlChars cs with
      | nil => exact absurd hc (splitNlChars_ne_nil cs)
      | cons x y => exact ⟨x, y, rfl⟩
    rw [ht] at ih
    simp only [splitNlChars]
    by_cases h : c = '\n'
    · subst h
      simp only [if_pos rfl, ht, joinNlChars]
      simpa using ih
    · simp only [if_neg h, ht]
      cases t' with
      | nil => simpa [joinNlChars] using congrArg (c :: ·) ih
      | cons x xs => simpa [joinNlChars] using congrArg (c :: ·) ih

theorem data_joinLines_map_mk (ll : List (List Char)) :
    (joinLines (ll.map String.mk)).data = joinNlChars ll := by
  induction ll with
  | nil => rfl
  | cons a ll ih =>
    cases ll with
    | nil => rfl
    | cons b ls =>
      simp only [List.map_cons, joinLines, joinNlChars, String.data_append] at ih ⊢
      rw [ih]
      simp

/-- `"\n".join(content.split("\n")) == content`: joining the split lines
recovers the original text. -/
theorem joinLines_splitLines (s : String) : joinLines (splitLines s) = s := by
  apply String.ext
  rw [splitLines, data_joinLines_map_mk, joinNlChars_splitNlChars]

/-! ## Claim C1: the mtime-gated file cache -/

/-- C1.  For every `_load_file` call on a path with a cache entry
`(p, t)`: if `t` equals the file's current mtime, the cached page itself
is returned and the cache is untouched — regardless of the file's current
content, which the conclusion does not mention; otherwise the content is
re-parsed into a new page that is stored with the current mtime and
returned. -/
theorem load_file_mtime_gated {P : Type} (parse : String → String → String → P)
    (fs : String → FSFile) (cache : FileCache P)
    (path filename rel_path : String) (p : P) (t : Nat)
    (hc : cache filename = some (p, t)) :
    (t = (fs filename).mtime →
      load_file parse fs cache path filename rel_path = (p, cache)) ∧
    (t ≠ (fs filename).mtime →
      load_file parse fs cache path filename rel_path =
        (parse (fs filename).content path rel_path,
         cacheStore cache filename
           (parse (fs filename).content path rel_path,
            (fs filename).mtime))) := by
  constructor
  · intro hEq
    simp [load_file, hc, hEq]
  · intro hNe
    simp [load_file, hc, hNe]

/-- Witness for C1: a concrete hit (stored mtime 5 = current mtime 5)
returns the cached page `9` even though re-parsing the current content
would yield `2`, and a concrete miss (stored mtime 4 ≠ 5) re-parses and
stores. -/
theorem load_file_mtime_gated_witness :
    (load_file (fun c _ _ => c.length) (fun _ => ⟨"ab", 5⟩)
        (fun k => if k = "f.html" then some (9, 5) else none)
        "f" "f.html" "" = (9, fun k => if k = "f.html" then some (9, 5) else none)) ∧
    (load_file (fun c _ _ => c.length) (fun _ => ⟨"ab", 5⟩)
        (fun k => if k = "f.html" then some (9, 4) else none)
        "f" "f.html" "" =
      (2, cacheStore (fun k => if k = "f.html" then some (9, 4) else none)
        "f.html" (2, 5))) := by
  constructor
  · exact (load_file_mtime_gated (fun c _ _ => c.length) (fun _ => ⟨"ab", 5⟩)
      (fun k => if k = "f.html" then some (9, 5) else none)
      "f" "f.html" "" 9 5 (by simp)).1 rfl
  · exact (load_file_mtime_gated (fun c _ _ => c.length) (fun _ => ⟨"ab", 5⟩)
      (fun k => if k = "f.html" then some (9, 4) else none)
      "f" "f.html" "" 9 4 (by simp)).2 (by decide)

/-! ## Claim C8: renderer arity dispatch -/

/-- C8.  The wrapped HTML renderer calls the configured renderer with
`(body)` for one declared argument, `(body, flatpages)` for two and
`(body, flatpages, page)` for three; for every other declared arity it
raises, when the wrapper is invoked at render time, a `ValueError` whose
message names the renderer and the unsupported number of arguments.
(When `getfullargspec` itself raises `TypeError` — `argsLength = none` —
the renderer is called with `(body)` alone.) -/
theorem smart_html_renderer_arity {F : Type} (argsLength : Option Nat)
    (rname : String) (fp : F) (page : WPage) :
    (argsLength = some 1 →
      smart_html_renderer argsLength rname fp page = .ok (.one page.body)) ∧
    (argsLength = some 2 →
      smart_html_renderer argsLength rname fp page = .ok (.two page.body fp)) ∧
    (argsLength = some 3 →
      smart_html_renderer argsLength rname fp page = .ok (.three page.body fp page)) ∧
    (argsLength = none →
      smart_html_renderer argsLength rname fp page = .ok (.one page.body)) ∧
    (∀ n, argsLength = some n → n ≠ 1 → n ≠ 2 → n ≠ 3 →
      smart_html_renderer argsLength rname fp page =
        .error ("HTML renderer function " ++ rname ++ " not supported by " ++
          "Flask-FlatPages, wrong number of arguments: " ++ toString n ++ ".")) := by
  refine ⟨?_, ?_, ?_, ?_, ?_⟩
  · rintro rfl; rfl
  · rintro rfl; rfl
  · rintro rfl; rfl
  · rintro rfl; rfl
  · rintro n rfl h1 h2 h3
    simp [smart_html_renderer, rendererWrapper, h1, h2, h3]

/-- Witness for C8 at concrete arities: 1, 2, 3 dispatch to the three
call shapes, and arity 5 raises the error naming the renderer
(`my_renderer`) and the arity. -/
theorem smart_html_renderer_arity_witness :
    (smart_html_renderer (some 1) "my_renderer" 7 ⟨"B"⟩ = .ok (.one "B")) ∧
    (smart_html_renderer (some 2) "my_renderer" 7 ⟨"B"⟩ = .ok (.two "B" 7)) ∧
    (smart_html_renderer (some 3) "my_renderer" 7 ⟨"B"⟩ = .ok (.three "B" 7 ⟨"B"⟩)) ∧
    (smart_html_renderer (some 5) "my_renderer" 7 ⟨"B"⟩ =
      .error ("HTML renderer function my_renderer not supported by " ++
        "Flask-FlatPages, wrong number of arguments: 5.")) := by
  refine ⟨?_, ?_, ?_, ?_⟩
  · exact (smart_html_renderer_arity (some 1) "my_renderer" 7 ⟨"B"⟩).1 rfl
  · exact (smart_html_renderer_arity (some 2) "my_renderer" 7 ⟨"B"⟩).2.1 rfl
  · exact (smart_html_renderer_arity (some 3) "my_renderer" 7 ⟨"B"⟩).2.2.1 rfl
  · exact (smart_html_renderer_arity (some 5) "my_renderer" 7
      ⟨"B"⟩).2.2.2.2 5 rfl (by decide) (by decide) (by decide)

/-! ## Claim C9: the legacy parser when no line is blank -/

/-- C9.  If no line of the content is empty after stripping whitespace,
the legacy parser returns the entire content as metadata text and an
empty body: `takewhile` consumes every line, and joining the exhausted
iterator yields `""`. -/
theorem legacyParse_no_blank (content : String)
    (h : ∀ l ∈ splitLines content, pyStripTruthy l = true) :
    legacyParse content = (content, "") := by
  have ht : (splitLines content).takeWhile pyStripTruthy = splitLines content :=
    List.takeWhile_eq_self_iff.mpr h
  have hd : (splitLines content).drop ((splitLines content).length + 1) = [] :=
    List.drop_eq_nil_of_le (by omega)
  rw [legacyParse]
  simp only [ht, hd]
  rw [joinLines_splitLines]
  rfl

/-- Witness for C9: `"title: hello\nauthor: x"` has no blank line, so it
is all metadata and the body is empty. -/
theorem legacyParse_no_blank_witness :
    legacyParse "title: hello\nauthor: x" = ("title: hello\nauthor: x", "") :=
  legacyParse_no_blank "title: hello\nauthor: x" (by decide)

/-! ## Claim C7: non-mapping metadata and the decoder's error

`parsers/yaml.py load_meta` was meant to reject non-mapping metadata with
`ValueError("Expected a dict in metadata for '<path>', got <type>")`
(lines 62-67, and the comment above them gives `yaml.safe_load('- 1\n- a')
-> [1, 'a']` as the motivating example).  But the loop updates `meta`
with each document *before* any check, so `meta` is always a dict and the
descriptive branch is unreachable: a bare list such as `[1, 'a']` makes
`dict.update` raise a bare `TypeError`, and a list of two-character
strings is silently coerced into a mapping with no error at all.
`page.py Page.meta` (lines 95-107) does implement the claimed check. -/

/-- C7 (code bug).  At the failing input — metadata decoding to the bare
list `[1, 'a']`, the very example in the source comment — `load_meta`
raises the `TypeError` from `dict.update`, not the descriptive
`ValueError`; a bare list of two-character strings `['ab', 'cd']` is
silently turned into the mapping `{'a': 'b', 'c': 'd'}`; while
`Page.meta` on the same bare list raises the descriptive error naming
the page and the actual type. -/
theorem load_meta_nonmapping_bug :
    load_meta [.yList [.yInt 1, .yStr "a"]] "hello" =
      .error (.typeError
        "cannot convert dictionary update sequence element #0 to a sequence") ∧
    load_meta [.yList [.yStr "ab", .yStr "cd"]] "hello" =
      .ok [("a", .yStr "b"), ("c", .yStr "d")] ∧
    pageMeta (.yList [.yInt 1, .yStr "a"]) "hello" =
      .error (.valueError "Excpected dict in metadata for 'hello', got list") := by
  refine ⟨rfl, rfl, rfl⟩

/-! ## Claim C6: the TOML parser with an unclosed delimiter -/

theorem tomlFindEndAux_eq_zero_of_not_mem (lines : List String) (idx : Nat)
    (h : "+++" ∉ lines) : tomlFindEndAux lines idx true = 0 := by
  induction lines generalizing idx with
  | nil => rfl
  | cons l ls ih =>
    rw [tomlFindEndAux]
    have hl : l ≠ "+++" := fun he => h (he ▸ List.mem_cons_self l ls)
    rw [if_neg hl]
    exact ih (idx + 1) (fun hm => h (List.mem_cons_of_mem l hm))

theorem tomlFindEndAux_eq_zero (lines : List String) (idx : Nat)
    (h : lines.count "+++" ≤ 1) : tomlFindEndAux lines idx false = 0 := by
  induction lines generalizing idx with
  | nil => rfl
  | cons l ls ih =>
    rw [tomlFindEndAux]
    by_cases hl : l = "+++"
    · rw [if_pos hl]
      have hcount : ls.count "+++" = 0 := by
        rw [List.count_cons] at h
        simp [hl] at h
        omega
      exact tomlFindEndAux_eq_zero_of_not_mem ls (idx + 1)
        (List.count_eq_zero.mp hcount)
    · rw [if_neg hl]
      apply ih
      rw [List.count_cons] at h
      simpa [hl] using h

theorem filter_ne_eq_erase_of_count_one (lines : List String)
    (h : lines.count "+++" = 1) :
    lines.filter (fun l => l ≠ "+++") = lines.erase "+++" := by
  induction lines with
  | nil => rfl
  | cons l ls ih =>
    by_cases hl : l = "+++"
    · subst hl
      have hcount : ls.count "+++" = 0 := by
        rw [List.count_cons] at h
        simpa using h
      have hnm : "+++" ∉ ls := List.count_eq_zero.mp hcount
      rw [List.erase_cons_head]
      simp only [List.filter_cons]
      rw [if_neg (by simp)]
      exact List.filter_eq_self.mpr (fun a ha => by
        simp only [ne_eq, decide_eq_true_eq]
        exact fun he => hnm (he ▸ ha))
    · have hcount : ls.count "+++" = 1 := by
        rw [List.count_cons] at h
        simpa [hl] using h
      rw [List.erase_cons_tail (by simp [hl])]
      simp only [List.filter_cons]
      rw [if_pos (by simp [hl])]
      rw [ih hcount]

/-- C6.  If the content contains exactly one `"+++"` line (an opening
delimiter that is never closed), the search loop leaves `end_idx = 0`:
no prefix is carved off as metadata, the TOML text passed to the decoder
is empty (so the metadata is the empty mapping), and the body is the
whole content minus only that single delimiter line, with leading
newlines stripped — no later line is consumed while searching for the
missing closing delimiter. -/
theorem tomlParse_unclosed (content : String)
    (loads : String → List (String × YVal))
    (hcount : (splitLines content).count "+++" = 1)
    (hloads : loads "" = []) :
    tomlParse loads content =
      ([], lstripNl (joinLines ((splitLines content).erase "+++"))) := by
  have hend : tomlFindEnd (splitLines content) = 0 :=
    tomlFindEndAux_eq_zero (splitLines content) 1 (le_of_eq hcount)
  have hsplit : tomlSplit content =
      ("", lstripNl (joinLines ((splitLines content).erase "+++"))) := by
    rw [tomlSplit]
    simp only [hend, List.take_zero, List.drop_zero, List.filter_nil]
    rw [filter_ne_eq_erase_of_count_one (splitLines content) hcount]
    rfl
  rw [tomlParse, hsplit]
  simpa using hloads

/-- Witness for C6: `"+++\na = 1\nrest of body"` has a single `"+++"`
line; the parse yields empty metadata and keeps every other line. -/
theorem tomlParse_unclosed_witness :
    tomlParse (fun _ => []) "+++\na = 1\nrest of body" =
      ([], "a = 1\nrest of body") := by
  have h := tomlParse_unclosed "+++\na = 1\nrest of body" (fun _ => [])
    (by decide) rfl
  simpa using h

/-! ## Claim C2: collision detection in the page-table build -/

theorem lookup_append_left {P : Type} (acc ys : List (String × P)) (q : String)
    (h : (acc.lookup q).isSome = true) : (acc ++ ys).lookup q = acc.lookup q := by
  induction acc with
  | nil => simp [List.lookup] at h
  | cons e es ih =>
    obtain ⟨k, v⟩ := e
    by_cases he : q = k
    · simp [List.lookup, he]
    · have hbeq : (q == k) = false := beq_eq_false_iff_ne.mpr he
      simp only [List.cons_append, List.lookup, hbeq] at h ⊢
      exact ih h

theorem lookup_append_self {P : Type} (acc : List (String × P)) (p : String)
    (v : P) (h : acc.lookup p = none) :
    (acc ++ [(p, v)]).lookup p = some v := by
  induction acc with
  | nil => simp [List.lookup]
  | cons e es ih =>
    obtain ⟨k, w⟩ := e
    by_cases he : p = k
    · simp [List.lookup, he] at h
    · have hbeq : (p == k) = false := beq_eq_false_iff_ne.mpr he
      simp only [List.lookup, hbeq] at h
      simp only [List.cons_append, List.lookup, hbeq]
      exact ih h

theorem pagesAux_error_of_dup {P : Type} (parse : String → String → String → P)
    (fs : String → FSFile) :
    ∀ (walk : List (String × String × String)) (cache : FileCache P)
      (acc : List (String × P)),
      ((∃ q ∈ walk.map (fun w => w.1), (acc.lookup q).isSome = true) ∨
        ¬ (walk.map (fun w => w.1)).Nodup) →
      pagesAux parse fs walk cache acc = .error collisionMsg := by
  intro walk
  induction walk with
  | nil =>
    intro cache acc h
    rcases h with ⟨q, hq, _⟩ | hnd
    · simp at hq
    · simp at hnd
  | cons w rest ih =>
    intro cache acc h
    obtain ⟨p, fn, rel⟩ := w
    rw [pagesAux]
    by_cases hl : (acc.lookup p).isSome = true
    · rw [if_pos hl]
    · rw [if_neg hl]
      have hnone : acc.lookup p = none := Option.not_isSome_iff_eq_none.mp hl
      apply ih
      rcases h with ⟨q, hq, hsome⟩ | hnd
      · have hq' : q = p ∨ q ∈ rest.map (fun w => w.1) := by simpa using hq
        rcases hq' with rfl | hq''
        · exact absurd hsome hl
        · refine Or.inl ⟨q, hq'', ?_⟩
          rw [lookup_append_left acc _ q hsome]
          exact hsome
      · have : p ∈ rest.map (fun w => w.1) ∨ ¬ (rest.map (fun w => w.1)).Nodup := by
          by_contra hc
          push_neg at hc
          exact hnd (by simp [List.nodup_cons, hc.1, hc.2])
        rcases this with hp | hnd'
        · refine Or.inl ⟨p, hp, ?_⟩
          rw [lookup_append_self acc p _ hnone]
          rfl
        · exact Or.inr hnd'

/-- C2.  If two files discovered by the directory walker resolve to the
same logical path — for any extension set, case-folding flag and
directory contents — the page-table build aborts with the descriptive
collision error instead of keeping one page and dropping the other. -/
theorem pagesBuild_collision {P : Type} (parse : String → String → String → P)
    (fs : String → FSFile) (cache : FileCache P) (extensions : List String)
    (caseInsensitive : Bool) (files : List (List String × String))
    (h : ¬ (((walkerItems extensions caseInsensitive files).map
        (fun w => w.1)).Nodup)) :
    pagesBuild parse fs (walkerItems extensions caseInsensitive files) cache =
      .error collisionMsg :=
  pagesAux_error_of_dup parse fs _ cache [] (Or.inr h)

/-- Witness for C2, the spec's own example: with accepted extensions
`.html` and `.txt`, the files `a.html` and `a.txt` both derive logical
path `"a"`, and the build yields the collision error. -/
theorem pagesBuild_collision_witness :
    walkerPath [".html", ".txt"] false [] "a.html" = some "a" ∧
    walkerPath [".html", ".txt"] false [] "a.txt" = some "a" ∧
    pagesBuild (P := Nat) (fun _ _ _ => 0) (fun _ => ⟨"", 0⟩)
      (walkerItems [".html", ".txt"] false [([], "a.html"), ([], "a.txt")])
      (fun _ => none) =
      .error collisionMsg :=
  ⟨by decide, by decide,
    pagesBuild_collision (fun _ _ _ => 0) (fun _ => ⟨"", 0⟩) (fun _ => none)
      [".html", ".txt"] false [([], "a.html"), ([], "a.txt")] (by decide)⟩

/-! ## Claim C5: content that does not open with a metadata structure -/

/-- C5.  Whenever the first structural token is not a mapping-start,
sequence-start, document-start, flow-start or key token, the tokenizing
parser returns empty metadata text (which decodes to the empty mapping:
no documents, so `load_meta` yields `{}`) and the content with leading
blank lines stripped as the body. -/
theorem libyamlSplit_not_start :
    (∀ (content : String) (stream : List Tok) (raises : Bool),
      secondTokNotStart stream raises = true →
      libyamlSplit content stream raises = .ok "" (lstripNl content)) ∧
    (∀ path, load_meta [] path = .ok []) := by
  constructor
  · intro content stream raises h
    cases stream with
    | nil =>
      cases raises with
      | false => rfl
      | true => simp [secondTokNotStart] at h
    | cons a rest =>
      cases rest with
      | nil =>
        cases raises with
        | false => rfl
        | true => simp [secondTokNotStart] at h
      | cons b rest2 =>
        have hb : isStartTok b.kind = false := by
          simpa [secondTokNotStart] using h
        simp [libyamlSplit, libyamlDecision, popTok, hb]
  · intro path
    rfl

/-- Witness for C5: `"Hello world"` tokenizes to a bare scalar, so the
metadata text is empty (and decodes to the empty mapping) and the body is
`"Hello world"` itself. -/
theorem libyamlSplit_not_start_witness :
    libyamlSplit "Hello world" streamHello false = .ok "" "Hello world" ∧
    load_meta [] "hello" = .ok [] :=
  ⟨libyamlSplit_not_start.1 "Hello world" streamHello false (by decide),
   libyamlSplit_not_start.2 "hello"⟩

/-! ## Claim C3: how many leading blank lines the body loses

The claim says the body is the post-metadata text with *at most one*
leading blank line stripped, under either parsing algorithm.  That is
true of the legacy parser (it consumes exactly the separating blank
line), but the tokenizing parser ends with
`"\n".join(lines[meta_end_line:]).lstrip("\n")`, which strips *all*
leading blank lines. -/

/-- C3 counterexample.  On `"---\na: b\n...\n\n\nX"` the metadata block
is the explicitly delimited document (lines 0-2) and the remaining text
`"\n\nX"` begins with two blank lines; stripping at most one of them
would give body `"\n\nX"` or `"\nX"`, but the tokenizing parser returns
`"X"`: both blank lines are gone. -/
theorem libyamlSplit_blank_counterexample :
    libyamlSplit "---\na: b\n...\n\n\nX" streamDocMarked false =
      .ok "---\na: b\n..." "X" ∧
    ("X" : String) ≠ "\nX" ∧ ("X" : String) ≠ "\n\nX" :=
  ⟨by decide, by decide, by decide⟩

theorem takeWhile_append_sentinel {α : Type} {p : α → Bool} :
    ∀ (pre : List α) (b : α) (suf : List α),
      (∀ l ∈ pre, p l = true) → p b = false →
      (pre ++ b :: suf).takeWhile p = pre := by
  intro pre b suf hpre hb
  induction pre with
  | nil => simp [List.takeWhile, hb]
  | cons x xs ih =>
    have hx : p x = true := hpre x (List.mem_cons_self x xs)
    simp only [List.cons_append, List.takeWhile, hx, List.append_eq]
    rw [ih (fun l hl => hpre l (List.mem_cons_of_mem x hl))]

theorem drop_append_sentinel {α : Type} (pre : List α) (b : α) (suf : List α) :
    (pre ++ b :: suf).drop (pre.length + 1) = suf := by
  induction pre with
  | nil => simp
  | cons x xs ih => simp [ih]

/-- C3, amended.  Under the legacy parser the body is the line suffix
after the metadata prefix with exactly the single separating blank line
consumed — later blank lines survive; under the tokenizing parser every
successful split returns, for some boundary `k`, the first `k` lines as
metadata and the remaining lines with *all* leading blank lines stripped
as the body. -/
theorem parsers_blank_line_handling :
    (∀ (content : String) (pre : List String) (b : String) (suf : List String),
      splitLines content = pre ++ b :: suf →
      (∀ l ∈ pre, pyStripTruthy l = true) → pyStripTruthy b = false →
      legacyParse content = (joinLines pre, joinLines suf)) ∧
    (∀ (content : String) (stream : List Tok) (raises : Bool) (m b : String),
      libyamlSplit content stream raises = .ok m b →
      ∃ k, m = joinLines ((splitLines content).take k) ∧
        b = lstripNl (joinLines ((splitLines content).drop k))) := by
  constructor
  · intro content pre b suf hsplit hpre hb
    rw [legacyParse]
    simp only [hsplit]
    rw [takeWhile_append_sentinel pre b suf hpre hb, drop_append_sentinel]
  · intro content stream raises m b h
    rw [libyamlSplit] at h
    cases hD : libyamlDecision stream raises with
    | scanErr => rw [hD] at h; cases h
    | notStart =>
      rw [hD] at h
      injection h with hm hb
      refine ⟨0, ?_, ?_⟩
      · exact hm.symm
      · rw [List.drop_zero, joinLines_splitLines]
        exact hb.symm
    | loopResult token nt =>
      rw [hD] at h
      cases token with
      | some t =>
        simp only at h
        injection h with hm hb
        exact ⟨t.endLine + 1, hm.symm, hb.symm⟩
      | none =>
        cases nt with
        | none =>
          simp only at h
          injection h with hm hb
          refine ⟨(splitLines content).length, ?_, ?_⟩
          · rw [List.take_length, joinLines_splitLines, hm]
          · rw [List.drop_length, ← hb]
            rfl
        | some ntT =>
          simp only at h
          cases hF : ((splitLines content).drop ntT.startLine).findIdx?
              (fun l => l = "") with
          | none => rw [hF] at h; cases h
          | some i =>
            rw [hF] at h
            simp only at h
            injection h with hm hb
            exact ⟨ntT.startLine + i, hm.symm, hb.symm⟩

/-- Witness for C3 (amended): on `"a: b\n\n\nX"` the legacy parser keeps
the second blank line in the body (`"\nX"`), and the tokenizing parser on
`"---\na: b\n...\n\n\nX"` produces a split of the boundary/strip shape
with `k = 3`. -/
theorem parsers_blank_line_handling_witness :
    legacyParse "a: b\n\n\nX" = ("a: b", "\nX") ∧
    (∃ k, "---\na: b\n..." =
        joinLines ((splitLines "---\na: b\n...\n\n\nX").take k) ∧
      "X" = lstripNl (joinLines ((splitLines "---\na: b\n...\n\n\nX").drop k))) :=
  ⟨parsers_blank_line_handling.1 "a: b\n\n\nX" ["a: b"] "" ["", "X"]
      (by decide) (by decide) (by decide),
   parsers_blank_line_handling.2 "---\na: b\n...\n\n\nX" streamDocMarked false
      "---\na: b\n..." "X" (by decide)⟩

/-! ## Claim C4: totality of the no-boundary fallback

The claim says that whenever tokenization terminates with no explicit
document boundary and no qualifying blank line is found from the fallback
search point on, the parser returns the whole content as metadata with an
empty body and never raises from `lines[meta_end_line:].index("")`.  The
code only does so when *no multi-line plain scalar was recorded*
(`newline_token is None`); when such a scalar was recorded and no
exactly-empty line follows its start line, `index("")` raises
`ValueError`. -/

/-- C4 counterexample.  `"a: b\n  \n  c"` folds into a multi-line plain
scalar (the blank line consists of two spaces, so no line equals `""`):
tokenization exhausts the stream with no boundary token, the fallback
search finds no empty line, and the parser raises the `ValueError` from
`.index("")` instead of returning `(content, "")`. -/
theorem libyamlSplit_fallback_counterexample :
    libyamlDecision streamNlScalar false = .loopResult none (some nlScalarTok) ∧
    ((splitLines "a: b\n  \n  c").drop nlScalarTok.startLine).findIdx?
      (fun l => l = "") = none ∧
    libyamlSplit "a: b\n  \n  c" streamNlScalar false = .indexErr ∧
    SplitOut.indexErr ≠ SplitOut.ok "a: b\n  \n  c" "" :=
  ⟨by decide, by decide, by decide, by decide⟩

/-- C4, amended.  If tokenization terminates without a boundary token and
*without having recorded a multi-line plain scalar*, the entire content
is metadata and the body is empty; if a multi-line plain scalar was
recorded and no exactly-empty line occurs from its start line on, the
blank-line search raises the lookup error. -/
theorem libyamlSplit_exhausted_fallback :
    (∀ (content : String) (stream : List Tok) (raises : Bool),
      libyamlDecision stream raises = .loopResult none none →
      libyamlSplit content stream raises = .ok content "") ∧
    (∀ (content : String) (stream : List Tok) (raises : Bool) (nt : Tok),
      libyamlDecision stream raises = .loopResult none (some nt) →
      ((splitLines content).drop nt.startLine).findIdx? (fun l => l = "") =
        none →
      libyamlSplit content stream raises = .indexErr) := by
  constructor
  · intro content stream raises hD
    rw [libyamlSplit, hD]
  · intro content stream raises nt hD hF
    rw [libyamlSplit, hD]
    simp only [hF]

/-- Witness for C4 (amended): `"a: b"` exhausts with no boundary and no
multi-line scalar, so it is all metadata with empty body; the
multi-line-scalar input of the counterexample hits the lookup error. -/
theorem libyamlSplit_exhausted_fallback_witness :
    libyamlSplit "a: b" streamSimpleMap false = .ok "a: b" "" ∧
    libyamlSplit "a: b\n  \n  c" streamNlScalar false = .indexErr :=
  ⟨libyamlSplit_exhausted_fallback.1 "a: b" streamSimpleMap false (by decide),
   libyamlSplit_exhausted_fallback.2 "a: b\n  \n  c" streamNlScalar false
     nlScalarTok (by decide) (by decide)⟩

/-! ## Claim C10: reload keeps the file cache, and unchanged mtimes keep
the very same Page objects -/

theorem load_file_hit {P : Type} (parse : String → String → String → P)
    (fs : String → FSFile) (cache : FileCache P)
    (path fn rel : String) (pg : P)
    (hc : cache fn = some (pg, (fs fn).mtime)) :
    load_file parse fs cache path fn rel = (pg, cache) := by
  simp [load_file, hc]

theorem load_file_self {P : Type} (parse : String → String → String → P)
    (fs : String → FSFile) (cache : FileCache P) (path fn rel : String) :
    (load_file parse fs cache path fn rel).2 fn =
      some ((load_file parse fs cache path fn rel).1, (fs fn).mtime) := by
  rw [load_file]
  cases hc : cache fn with
  | none => simp [cacheStore]
  | some c =>
    obtain ⟨pg, t⟩ := c
    by_cases ht : t = (fs fn).mtime
    · subst ht
      simp [hc]
    · simp [ht, cacheStore]

theorem load_file_preserves {P : Type} (parse : String → String → String → P)
    (fs : String → FSFile) (cache : FileCache P) (path fn rel f : String)
    (pg : P) (hf : cache f = some (pg, (fs f).mtime)) :
    (load_file parse fs cache path fn rel).2 f = some (pg, (fs f).mtime) := by
  rw [load_file]
  cases hc : cache fn with
  | none =>
    simp only [cacheStore]
    by_cases hef : f = fn
    · subst hef
      rw [hf] at hc
      cases hc
    · simp [hef, hf]
  | some c =>
    by_cases ht : c.2 = (fs fn).mtime
    · simpa [ht] using hf
    · simp only [ht, if_false, cacheStore]
      by_cases hef : f = fn
      · subst hef
        rw [hf] at hc
        injection hc with hc'
        rw [← hc'] at ht
        simp at ht
      · simp [hef, hf]

theorem pagesAux_preserves_entry {P : Type}
    (parse : String → String → String → P) (fs : String → FSFile) :
    ∀ (walk : List (String × String × String)) (cache : FileCache P)
      (acc tbl : List (String × P)) (cache' : FileCache P) (f : String) (pg : P),
      pagesAux parse fs walk cache acc = .ok (tbl, cache') →
      cache f = some (pg, (fs f).mtime) →
      cache' f = some (pg, (fs f).mtime) := by
  intro walk
  induction walk with
  | nil =>
    intro cache acc tbl cache' f pg h hf
    rw [pagesAux] at h
    injection h with h1
    injection h1 with _ hcache
    rw [← hcache]
    exact hf
  | cons w rest ih =>
    intro cache acc tbl cache' f pg h hf
    obtain ⟨p, fn, rel⟩ := w
    rw [pagesAux] at h
    by_cases hl : ((acc.lookup p).isSome = true)
    · rw [if_pos hl] at h
      cases h
    · rw [if_neg hl] at h
      exact ih _ _ _ _ f pg h
        (load_file_preserves parse fs cache p fn rel f pg hf)

theorem lookup_append_none {P : Type} (acc : List (String × P))
    (p q : String) (v : P) (hq : acc.lookup q = none) (hne : q ≠ p) :
    (acc ++ [(p, v)]).lookup q = none := by
  induction acc with
  | nil => simp [List.lookup, beq_eq_false_iff_ne.mpr hne]
  | cons e es ih =>
    obtain ⟨k, w⟩ := e
    by_cases he : q = k
    · simp [List.lookup, he] at hq
    · have hbeq : (q == k) = false := beq_eq_false_iff_ne.mpr he
      simp only [List.lookup, hbeq] at hq
      simp only [List.cons_append, List.lookup, hbeq]
      exact ih hq

theorem pagesAux_ok_nodup {P : Type} (parse : String → String → String → P)
    (fs : String → FSFile) (walk : List (String × String × String))
    (cache : FileCache P) (acc tbl : List (String × P))
    (cache' : FileCache P)
    (h : pagesAux parse fs walk cache acc = .ok (tbl, cache')) :
    (walk.map (fun w => w.1)).Nodup ∧
    ∀ q ∈ walk.map (fun w => w.1), acc.lookup q = none := by
  constructor
  · by_contra hnd
    rw [pagesAux_error_of_dup parse fs walk cache acc (Or.inr hnd)] at h
    cases h
  · intro q hq
    by_contra hsome
    rw [pagesAux_error_of_dup parse fs walk cache acc
      (Or.inl ⟨q, hq, Option.ne_none_iff_isSome.mp hsome⟩)] at h
    cases h

theorem pagesAux_lookup_stable {P : Type} (parse : String → String → String → P)
    (fs : String → FSFile) :
    ∀ (walk : List (String × String × String)) (cache : FileCache P)
      (acc tbl : List (String × P)) (cache' : FileCache P) (q : String),
      pagesAux parse fs walk cache acc = .ok (tbl, cache') →
      (acc.lookup q).isSome = true →
      tbl.lookup q = acc.lookup q := by
  intro walk
  induction walk with
  | nil =>
    intro cache acc tbl cache' q h hsome
    rw [pagesAux] at h
    injection h with h1
    injection h1 with htbl _
    rw [← htbl]
  | cons w rest ih =>
    intro cache acc tbl cache' q h hsome
    obtain ⟨p, fn, rel⟩ := w
    rw [pagesAux] at h
    by_cases hl : ((acc.lookup p).isSome = true)
    · rw [if_pos hl] at h
      cases h
    · rw [if_neg hl] at h
      have hstable := ih _ _ _ _ q h
        (by rw [lookup_append_left acc _ q hsome]; exact hsome)
      rw [hstable, lookup_append_left acc _ q hsome]

theorem pagesAux_cache_matches_table {P : Type}
    (parse : String → String → String → P) (fs : String → FSFile) :
    ∀ (walk : List (String × String × String)) (cache : FileCache P)
      (acc tbl : List (String × P)) (cache' : FileCache P),
      pagesAux parse fs walk cache acc = .ok (tbl, cache') →
      ∀ q fn rel, (q, fn, rel) ∈ walk →
        ∃ pgq, cache' fn = some (pgq, (fs fn).mtime) ∧
          tbl.lookup q = some pgq := by
  intro walk
  induction walk with
  | nil =>
    intro cache acc tbl cache' h q fn rel hmem
    simp at hmem
  | cons w rest ih =>
    intro cache acc tbl cache' h q fn rel hmem
    obtain ⟨p, f0, r0⟩ := w
    rw [pagesAux] at h
    by_cases hl : ((acc.lookup p).isSome = true)
    · rw [if_pos hl] at h
      cases h
    · rw [if_neg hl] at h
      rcases List.mem_cons.mp hmem with heq | hmem'
      · have hq : q = p := congrArg Prod.fst heq
        have hfn : fn = f0 := congrArg (fun x => x.2.1) heq
        subst hq
        subst hfn
        refine ⟨(load_file parse fs cache q fn r0).1, ?_, ?_⟩
        · exact pagesAux_preserves_entry parse fs rest _ _ _ _ fn _ h
            (load_file_self parse fs cache q fn r0)
        · have hnone : acc.lookup q = none :=
            Option.not_isSome_iff_eq_none.mp hl
          have hself : ((acc ++
              [(q, (load_file parse fs cache q fn r0).1)]).lookup q) =
              some (load_file parse fs cache q fn r0).1 :=
            lookup_append_self acc q _ hnone
          rw [pagesAux_lookup_stable parse fs rest _ _ _ _ q h
            (by rw [hself]; rfl), hself]
      · exact ih _ _ _ _ h q fn rel hmem'

theorem pagesAux_rebuild {P : Type} (parse : String → String → String → P)
    (fs2 : String → FSFile) :
    ∀ (walk : List (String × String × String)) (cache2 : FileCache P)
      (acc2 : List (String × P)),
      (walk.map (fun w => w.1)).Nodup →
      (∀ q ∈ walk.map (fun w => w.1), acc2.lookup q = none) →
      ∃ tbl2 cache2',
        pagesAux parse fs2 walk cache2 acc2 = .ok (tbl2, cache2') ∧
        ∀ q fn rel pgq, (q, fn, rel) ∈ walk →
          cache2 fn = some (pgq, (fs2 fn).mtime) →
          tbl2.lookup q = some pgq := by
  intro walk
  induction walk with
  | nil =>
    intro cache2 acc2 _ _
    refine ⟨acc2, cache2, rfl, ?_⟩
    intro q fn rel pgq hmem
    simp at hmem
  | cons w rest ih =>
    intro cache2 acc2 hnd hmiss
    obtain ⟨p, fn0, rel0⟩ := w
    have hpnone : acc2.lookup p = none := hmiss p (by simp)
    have hnd' : (rest.map (fun w => w.1)).Nodup :=
      (List.nodup_cons.mp (by simpa using hnd)).2
    have hpnotin : p ∉ rest.map (fun w => w.1) :=
      (List.nodup_cons.mp (by simpa using hnd)).1
    have hmiss' : ∀ q ∈ rest.map (fun w => w.1),
        (acc2 ++ [(p, (load_file parse fs2 cache2 p fn0 rel0).1)]).lookup q
          = none := by
      intro q hq
      exact lookup_append_none acc2 p q _
        (hmiss q (by simp [hq]))
        (fun he => hpnotin (he ▸ hq))
    obtain ⟨tbl2, cache2', hok, hitem⟩ :=
      ih (load_file parse fs2 cache2 p fn0 rel0).2 _ hnd' hmiss'
    refine ⟨tbl2, cache2', ?_, ?_⟩
    · rw [pagesAux,
        if_neg (by rw [hpnone]; simp)]
      exact hok
    · intro q fn rel pgq hmem hc2
      rcases List.mem_cons.mp hmem with heq | hmem'
      · have hq : q = p := congrArg (fun x => x.1) heq
        have hfn : fn = fn0 := congrArg (fun x => x.2.1) heq
        subst hq
        subst hfn
        have hhit : load_file parse fs2 cache2 q fn rel0 = (pgq, cache2) :=
          load_file_hit parse fs2 cache2 q fn rel0 pgq hc2
        have hself : ((acc2 ++
            [(q, (load_file parse fs2 cache2 q fn rel0).1)]).lookup q) =
            some (load_file parse fs2 cache2 q fn rel0).1 :=
          lookup_append_self acc2 q _ hpnone
        rw [pagesAux_lookup_stable parse fs2 rest _ _ _ _ q hok
          (by rw [hself]; rfl), hself, hhit]
      · have hc2' : (load_file parse fs2 cache2 p fn0 rel0).2 fn =
            some (pgq, (fs2 fn).mtime) :=
          load_file_preserves parse fs2 cache2 p fn0 rel0 fn pgq hc2
        exact hitem q fn rel pgq hmem' hc2'

/-- C10.  `reload` only forgets the `_pages` snapshot and leaves the file
cache untouched; consequently, after `reload()`, a subsequent access to a
page whose file's modification time is unchanged (its content, and any
other file, may have changed arbitrarily) returns the identical page
object the file cache already holds from before the reload. -/
theorem reload_keeps_file_cache {P : Type}
    (parse : String → String → String → P) (fs1 fs2 : String → FSFile)
    (walk : List (String × String × String)) (path fn rel : String) (pg : P)
    (c0 : FileCache P) (s1 : FPState P)
    (hwalk : (path, fn, rel) ∈ walk)
    (hmt : (fs2 fn).mtime = (fs1 fn).mtime)
    (h0 : fpGet parse fs1 walk ⟨none, c0⟩ path = .ok (some pg, s1)) :
    (reload s1).pages = none ∧
    (reload s1).fcache = s1.fcache ∧
    ∃ s2, fpGet parse fs2 walk (reload s1) path = .ok (some pg, s2) := by
  rw [fpGet, pagesAccess] at h0
  simp only at h0
  cases hb : pagesBuild parse fs1 walk c0 with
  | error e => rw [hb] at h0; cases h0
  | ok r =>
    obtain ⟨tbl, c1⟩ := r
    rw [hb] at h0
    simp only at h0
    injection h0 with h1
    injection h1 with hlook hs1
    refine ⟨rfl, rfl, ?_⟩
    obtain ⟨hnd, -⟩ := pagesAux_ok_nodup parse fs1 walk c0 [] tbl c1 hb
    obtain ⟨pgq, hc1, htb⟩ :=
      pagesAux_cache_matches_table parse fs1 walk c0 [] tbl c1 hb
        path fn rel hwalk
    have hpg : pgq = pg := by
      rw [hlook] at htb
      injection htb with he
      exact he.symm
    subst hpg
    obtain ⟨tbl2, c2, hok2, hitem⟩ :=
      pagesAux_rebuild parse fs2 walk c1 [] hnd (by intro q _; rfl)
    have hlook2 : tbl2.lookup path = some pgq :=
      hitem path fn rel pgq hwalk (by rw [hc1, hmt])
    refine ⟨⟨some tbl2, c2⟩, ?_⟩
    rw [← hs1, reload]
    simp only
    rw [fpGet, pagesAccess]
    simp only [pagesBuild, hok2]
    rw [hlook2]

/-- Witness for C10: page `"a"` was loaded from `a.html` (content
`"hello"`, mtime 1) and page `"b"` from `b.html`; afterwards `a.html`
changes content but keeps mtime 1, while `b.html` changes both content
and mtime.  The access after `reload` still returns the identical cached
page `"hello"` for `"a"`. -/
theorem reload_keeps_file_cache_witness :
    ∃ s2, fpGet (P := String) (fun c _ _ => c)
      (fun f => if f = "a.html" then ⟨"changed", 1⟩ else ⟨"world2", 2⟩)
      [("a", "a.html", ""), ("b", "b.html", "")]
      (reload ⟨some [("a", "hello"), ("b", "world")],
        cacheStore (cacheStore (fun _ => none) "a.html" ("hello", 1))
          "b.html" ("world", 1)⟩) "a" = .ok (some "hello", s2) :=
  (reload_keeps_file_cache (P := String) (fun c _ _ => c)
    (fun f => if f = "a.html" then ⟨"hello", 1⟩ else ⟨"world", 1⟩)
    (fun f => if f = "a.html" then ⟨"changed", 1⟩ else ⟨"world2", 2⟩)
    [("a", "a.html", ""), ("b", "b.html", "")] "a" "a.html" "" "hello"
    (fun _ => none)
    ⟨some [("a", "hello"), ("b", "world")],
      cacheStore (cacheStore (fun _ => none) "a.html" ("hello", 1))
        "b.html" ("world", 1)⟩
    (by simp) (by decide) rfl).2.2

end FlatPagesSpec
